import Mathlib

/-
  Shallow embedding of `model.py`: the Actor (policy) and Critic (value)
  networks of a DDPG agent, their parameter initialization (`hidden_init`,
  `reset_parameters`) and forward passes.

  Tensors are rectangular lists of lists of reals (batch of rows).
  A forward pass returns `Option Mat`: `none` models the runtime shape
  errors PyTorch raises (matmul dimension mismatch, `torch.cat` batch
  mismatch, BatchNorm1d on a training batch of size at most 1).
  Random sampling is modelled by an explicit stream `s : ℕ → ℝ` of unit
  samples together with a position; `uniform_(lo, hi)` maps the sample
  `u` to `lo + u * (hi - lo)`.
-/

namespace DDPG

abbrev Vec := List ℝ

abbrev Mat := List (List ℝ)

/-- `weight.data.size()` of a 2-D tensor: the list `[rows, cols]`. -/
def matSize (m : Mat) : List ℕ := [m.length, (m.headD []).length]

noncomputable def relu (x : ℝ) : ℝ := max 0 x

/-- `F.relu` applied elementwise to a batch. -/
noncomputable def reluM (m : Mat) : Mat := m.map (fun r => r.map relu)

/-- `torch.tanh` applied elementwise to a batch. -/
noncomputable def tanhM (m : Mat) : Mat := m.map (fun r => r.map Real.tanh)

noncomputable def dot (a b : Vec) : ℝ := (List.zipWith (fun x y => x * y) a b).sum

/-- An `nn.Linear(in_features, out_features)` layer: weight of shape
`[out_features, in_features]` and bias of length `out_features`. -/
structure Linear where
  in_features : ℕ
  out_features : ℕ
  weight : Mat
  bias : Vec

/-- The weight and bias actually have the shapes recorded in the layer. -/
def Linear.wf (l : Linear) : Prop :=
  l.weight.length = l.out_features ∧
  (∀ r ∈ l.weight, r.length = l.in_features) ∧
  l.bias.length = l.out_features

/-- `x @ W.T + b` on a single input row. -/
noncomputable def Linear.apply1 (l : Linear) (x : Vec) : Vec :=
  List.zipWith (fun w b => dot w x + b) l.weight l.bias

/-- The affine map applied to every row of a batch (no shape check). -/
noncomputable def linApply (l : Linear) (x : Mat) : Mat := x.map l.apply1

/-- Calling an `nn.Linear` on a batch: PyTorch raises a matmul shape error
when the feature dimension differs from `in_features`. -/
noncomputable def Linear.fwd (l : Linear) (x : Mat) : Option Mat :=
  if ∀ r ∈ x, r.length = l.in_features then some (linApply l x) else none

/-- `hidden_init` from `model.py`:
`fan_in = layer.weight.data.size()[0]; lim = 1/np.sqrt(fan_in)`,
returning `(-lim, lim)`.  Note `size()[0]` is the FIRST dimension of the
weight storage, i.e. `out_features` for a well-formed layer. -/
noncomputable def hidden_init (layer : Linear) : ℝ × ℝ :=
  let fan_in : ℕ := (matSize layer.weight).headD 0
  let lim : ℝ := 1 / Real.sqrt fan_in
  (-lim, lim)

/-- `tensor.uniform_(lo, hi)` on one row, drawing samples
`s p, s (p+1), ...` mapped affinely into `[lo, hi]`. -/
noncomputable def fillRow (lo hi : ℝ) (s : ℕ → ℝ) : ℕ → Vec → Vec
  | _, [] => []
  | p, _ :: xs => (lo + s p * (hi - lo)) :: fillRow lo hi s (p + 1) xs

/-- `tensor.uniform_(lo, hi)` on a matrix, row-major, returning the new
matrix and the advanced stream position. -/
noncomputable def fillMat (lo hi : ℝ) (s : ℕ → ℝ) : ℕ → Mat → Mat × ℕ
  | p, [] => ([], p)
  | p, r :: rs =>
    let r2 := fillRow lo hi s p r
    let rest := fillMat lo hi s (p + r.length) rs
    (r2 :: rest.1, rest.2)

/-- The Actor (policy) network: fc1, fc2, fc3 with the construction sizes. -/
structure Actor where
  state_size : ℕ
  action_size : ℕ
  fc1_units : ℕ
  fc2_units : ℕ
  fc1 : Linear
  fc2 : Linear
  fc3 : Linear

def Actor.wf (a : Actor) : Prop :=
  a.fc1.in_features = a.state_size ∧ a.fc1.out_features = a.fc1_units ∧
  a.fc2.in_features = a.fc1_units ∧ a.fc2.out_features = a.fc2_units ∧
  a.fc3.in_features = a.fc2_units ∧ a.fc3.out_features = a.action_size ∧
  a.fc1.wf ∧ a.fc2.wf ∧ a.fc3.wf

/-- `Actor.reset_parameters`: fc1 and fc2 weights refilled uniformly with
the bounds `hidden_init` computes for them, fc3 with `(-3e-3, 3e-3)`;
biases are not assigned. -/
noncomputable def Actor.reset_parameters (a : Actor) (s : ℕ → ℝ) (p : ℕ) :
    Actor × ℕ :=
  let b1 := hidden_init a.fc1
  let f1 := fillMat b1.1 b1.2 s p a.fc1.weight
  let b2 := hidden_init a.fc2
  let f2 := fillMat b2.1 b2.2 s f1.2 a.fc2.weight
  let f3 := fillMat (-(3 / 1000)) (3 / 1000) s f2.2 a.fc3.weight
  ({ a with fc1 := { a.fc1 with weight := f1.1 },
            fc2 := { a.fc2 with weight := f2.1 },
            fc3 := { a.fc3 with weight := f3.1 } }, f3.2)

/-- `Actor.forward`:
`x = relu(fc1(state)); x = relu(fc2(x)); actions = tanh(fc3(x))`;
a failing layer call propagates (the exception aborts the call). -/
noncomputable def Actor.fwd (a : Actor) (state : Mat) : Option Mat :=
  (a.fc1.fwd state).bind fun x1 =>
    (a.fc2.fwd (reluM x1)).bind fun x2 =>
      (a.fc3.fwd (reluM x2)).map tanhM

/-- Column `j` of a batch. -/
def col (x : Mat) (j : ℕ) : Vec := x.map (fun r => r.getD j 0)

noncomputable def vecMean (v : Vec) : ℝ := v.sum / v.length

/-- Biased variance, as BatchNorm uses for normalization. -/
noncomputable def vecVar (v : Vec) : ℝ :=
  ((v.map (fun a => (a - vecMean v) ^ 2)).sum) / v.length

/-- An `nn.BatchNorm1d(num_features)` layer (affine, tracking running
statistics). -/
structure BatchNorm1d where
  num_features : ℕ
  weight : Vec
  bias : Vec
  running_mean : Vec
  running_var : Vec
  eps : ℝ
  momentum : ℝ

/-- One normalized row, feature index running along the row:
`(v - mean j) / sqrt(var j + eps) * gamma j + beta j`. -/
noncomputable def bnRow (g b : Vec) (mu va : ℕ → ℝ) (eps : ℝ) :
    ℕ → Vec → Vec
  | _, [] => []
  | j, v :: vs =>
    ((v - mu j) / Real.sqrt (va j + eps) * g.getD j 1 + b.getD j 0) ::
      bnRow g b mu va eps (j + 1) vs

/-- The normalization a BatchNorm1d forward applies once its shape checks
pass: batch statistics in training mode, running statistics otherwise. -/
noncomputable def bnComp (bn : BatchNorm1d) (training : Bool) (x : Mat) : Mat :=
  let mu : ℕ → ℝ :=
    if training then fun j => vecMean (col x j) else fun j => bn.running_mean.getD j 0
  let va : ℕ → ℝ :=
    if training then fun j => vecVar (col x j) else fun j => bn.running_var.getD j 1
  x.map (bnRow bn.weight bn.bias mu va bn.eps 0)

/-- Calling an `nn.BatchNorm1d` on a 2-D batch: PyTorch raises when the
feature dimension differs from `num_features`, and raises
"Expected more than 1 value per channel when training" when the batch
has at most one row in training mode. -/
noncomputable def BatchNorm1d.fwd (bn : BatchNorm1d) (training : Bool)
    (x : Mat) : Option Mat :=
  if ∀ r ∈ x, r.length = bn.num_features then
    if training ∧ x.length ≤ 1 then none
    else some (bnComp bn training x)
  else none

/-- `torch.cat((a, b), dim=1)`: fails unless the batch sizes agree. -/
def cat1 (a b : Mat) : Option Mat :=
  if a.length = b.length then some (List.zipWith (fun r q => r ++ q) a b)
  else none

/-- The Critic (value) network: fcs1, bn1, fc2, fc3 with the construction
sizes. -/
structure Critic where
  state_size : ℕ
  action_size : ℕ
  fcs1_units : ℕ
  fc2_units : ℕ
  fcs1 : Linear
  bn1 : BatchNorm1d
  fc2 : Linear
  fc3 : Linear

def Critic.wf (c : Critic) : Prop :=
  c.fcs1.in_features = c.state_size ∧ c.fcs1.out_features = c.fcs1_units ∧
  c.bn1.num_features = c.fcs1_units ∧
  c.fc2.in_features = c.fcs1_units + c.action_size ∧
  c.fc2.out_features = c.fc2_units ∧
  c.fc3.in_features = c.fc2_units ∧ c.fc3.out_features = 1 ∧
  c.fcs1.wf ∧ c.fc2.wf ∧ c.fc3.wf

/-- `Critic.reset_parameters`: fcs1 and fc2 weights refilled uniformly with
the bounds `hidden_init` computes for them, fc3 with `(-3e-3, 3e-3)`;
biases and the BatchNorm parameters are not assigned. -/
noncomputable def Critic.reset_parameters (c : Critic) (s : ℕ → ℝ) (p : ℕ) :
    Critic × ℕ :=
  let b1 := hidden_init c.fcs1
  let f1 := fillMat b1.1 b1.2 s p c.fcs1.weight
  let b2 := hidden_init c.fc2
  let f2 := fillMat b2.1 b2.2 s f1.2 c.fc2.weight
  let f3 := fillMat (-(3 / 1000)) (3 / 1000) s f2.2 c.fc3.weight
  ({ c with fcs1 := { c.fcs1 with weight := f1.1 },
            fc2 := { c.fc2 with weight := f2.1 },
            fc3 := { c.fc3 with weight := f3.1 } }, f3.2)

/-- `Critic.forward`:
`xs = relu(bn1(fcs1(state))); x = cat((xs, action), dim=1);
x = relu(fc2(x)); Q = fc3(x)`. -/
noncomputable def Critic.fwd (c : Critic) (training : Bool)
    (state action : Mat) : Option Mat :=
  (c.fcs1.fwd state).bind fun y1 =>
    (c.bn1.fwd training y1).bind fun y2 =>
      (cat1 (reluM y2) action).bind fun x1 =>
        (c.fc2.fwd x1).bind fun x2 =>
          c.fc3.fwd (reluM x2)

/-- The process-wide torch generator: a stream of unit samples and the
position of the next one. -/
structure GState where
  stream : ℕ → ℝ
  pos : ℕ

/-- `torch.manual_seed(seed)`: the global generator is reset to a state
fully determined by the seed (`phi` maps a seed to its sample stream). -/
def manualSeed (phi : ℕ → ℕ → ℝ) (seed : ℕ) : GState :=
  { stream := phi seed, pos := 0 }

/-- `nn.Linear(inF, outF)` default initialization: weight filled by
kaiming-uniform with bound `1/sqrt(in_features)`, bias uniform with the
same bound, consuming the global generator. -/
noncomputable def mkLinear (inF outF : ℕ) (g : GState) : Linear × GState :=
  let lim : ℝ := 1 / Real.sqrt inF
  let w := fillMat (-lim) lim g.stream g.pos
    (List.replicate outF (List.replicate inF (0 : ℝ)))
  let b := fillRow (-lim) lim g.stream w.2 (List.replicate outF (0 : ℝ))
  (⟨inF, outF, w.1, b⟩, ⟨g.stream, w.2 + outF⟩)

/-- `Actor.__init__`: seeds the global generator, builds fc1, fc2, fc3,
then calls `reset_parameters`. -/
noncomputable def mkActor (phi : ℕ → ℕ → ℝ)
    (state_size action_size seed : ℕ) (fc1_units fc2_units : ℕ)
    (_gPrev : GState) : Actor × GState :=
  let g1 := manualSeed phi seed
  let r1 := mkLinear state_size fc1_units g1
  let r2 := mkLinear fc1_units fc2_units r1.2
  let r3 := mkLinear fc2_units action_size r2.2
  let a : Actor := ⟨state_size, action_size, fc1_units, fc2_units,
    r1.1, r2.1, r3.1⟩
  let ra := a.reset_parameters r3.2.stream r3.2.pos
  (ra.1, ⟨r3.2.stream, ra.2⟩)

/-! ### Spec-side compositions (refinement targets)

These two definitions transcribe the spec WORDING of the forward passes:
`tanh(fc3(relu(fc2(relu(fc1(state))))))` for the Actor and
`fc3(relu(fc2(cat(relu(batchnorm(fcs1(state))), action))))` for the
Critic, with no final bounding activation on the Critic. -/

noncomputable def actorComp (a : Actor) (state : Mat) : Mat :=
  tanhM (linApply a.fc3 (reluM (linApply a.fc2 (reluM (linApply a.fc1 state)))))

noncomputable def criticComp (c : Critic) (training : Bool)
    (state action : Mat) : Mat :=
  let xs := reluM (bnComp c.bn1 training (linApply c.fcs1 state))
  let x := List.zipWith (fun r q => r ++ q) xs action
  linApply c.fc3 (reluM (linApply c.fc2 x))

/-! ### Concrete instances used by witnesses and counterexamples -/

/-- A 4-input, 1-output layer: weight storage of shape `[1, 4]`. -/
noncomputable def L1 : Linear :=
  { in_features := 4, out_features := 1, weight := [[0, 0, 0, 0]], bias := [0] }

/-- A 1-1-1-1 Actor with all parameters zero. -/
noncomputable def A2 : Actor :=
  { state_size := 1, action_size := 1, fc1_units := 1, fc2_units := 1
    fc1 := { in_features := 1, out_features := 1, weight := [[0]], bias := [0] }
    fc2 := { in_features := 1, out_features := 1, weight := [[0]], bias := [0] }
    fc3 := { in_features := 1, out_features := 1, weight := [[0]], bias := [0] } }

/-- A 1-1-1-1 Actor with all parameters 5 resp. 3. -/
noncomputable def A1 : Actor :=
  { state_size := 1, action_size := 1, fc1_units := 1, fc2_units := 1
    fc1 := { in_features := 1, out_features := 1, weight := [[5]], bias := [3] }
    fc2 := { in_features := 1, out_features := 1, weight := [[5]], bias := [3] }
    fc3 := { in_features := 1, out_features := 1, weight := [[5]], bias := [3] } }

/-- A 1-1-1-1 Critic with zero affine parameters and fresh BatchNorm
statistics (torch defaults: `eps = 1e-5`, `momentum = 0.1`). -/
noncomputable def CR1 : Critic :=
  { state_size := 1, action_size := 1, fcs1_units := 1, fc2_units := 1
    fcs1 := { in_features := 1, out_features := 1, weight := [[0]], bias := [0] }
    bn1 := { num_features := 1, weight := [1], bias := [0],
             running_mean := [0], running_var := [1],
             eps := 1 / 100000, momentum := 1 / 10 }
    fc2 := { in_features := 2, out_features := 1, weight := [[0, 0]], bias := [0] }
    fc3 := { in_features := 1, out_features := 1, weight := [[0]], bias := [0] } }

/-- The constant unit-sample stream 1. -/
def oneStream : ℕ → ℝ := fun _ => 1

/-- The constant unit-sample stream 1/2. -/
noncomputable def halfStream : ℕ → ℝ := fun _ => 1 / 2

/-! ### Shape lemmas -/

theorem linApply_length (l : Linear) (x : Mat) :
    (linApply l x).length = x.length := by
  simp [linApply]

theorem apply1_length (l : Linear) (hl : l.wf) (x : Vec) :
    (l.apply1 x).length = l.out_features := by
  simp [Linear.apply1, hl.1, hl.2.2]

theorem linApply_rowlen (l : Linear) (hl : l.wf) (x : Mat) :
    ∀ r ∈ linApply l x, r.length = l.out_features := by
  intro r hr
  rcases List.mem_map.1 hr with ⟨q, _, rfl⟩
  exact apply1_length l hl q

theorem reluM_length (m : Mat) : (reluM m).length = m.length := by
  simp [reluM]

theorem reluM_rowlen (m : Mat) (k : ℕ) (h : ∀ r ∈ m, r.length = k) :
    ∀ r ∈ reluM m, r.length = k := by
  intro r hr
  rcases List.mem_map.1 hr with ⟨q, hq, rfl⟩
  simpa using h q hq

theorem tanhM_length (m : Mat) : (tanhM m).length = m.length := by
  simp [tanhM]

theorem bnRow_length (g b : Vec) (mu va : ℕ → ℝ) (eps : ℝ) (r : Vec) :
    ∀ j, (bnRow g b mu va eps j r).length = r.length := by
  induction r with
  | nil => intro j; rfl
  | cons v vs ih => intro j; simp [bnRow, ih (j + 1)]

theorem bnComp_length (bn : BatchNorm1d) (training : Bool) (x : Mat) :
    (bnComp bn training x).length = x.length := by
  simp [bnComp]

theorem bnComp_rowlen (bn : BatchNorm1d) (training : Bool) (x : Mat)
    (k : ℕ) (h : ∀ r ∈ x, r.length = k) :
    ∀ r ∈ bnComp bn training x, r.length = k := by
  intro r hr
  simp only [bnComp] at hr
  rcases List.mem_map.1 hr with ⟨q, hq, rfl⟩
  rw [bnRow_length]
  exact h q hq

theorem mem_zipWith {α β γ : Type} (f : α → β → γ) (l1 : List α)
    (l2 : List β) : ∀ c ∈ List.zipWith f l1 l2,
    ∃ a ∈ l1, ∃ b ∈ l2, c = f a b := by
  induction l1 generalizing l2 with
  | nil => intro c hc; simp at hc
  | cons a as ih =>
    intro c hc
    cases l2 with
    | nil => simp at hc
    | cons b bs =>
      rcases List.mem_cons.1 hc with h | h
      · exact ⟨a, List.mem_cons_self a as, b, List.mem_cons_self b bs, h⟩
      · rcases ih bs c h with ⟨a2, ha, b2, hb, rfl⟩
        exact ⟨a2, List.mem_cons_of_mem a ha, b2, List.mem_cons_of_mem b hb, rfl⟩

/-! ### Success and failure of the shape-checked calls -/

theorem linear_fwd_some (l : Linear) (x : Mat)
    (h : ∀ r ∈ x, r.length = l.in_features) :
    l.fwd x = some (linApply l x) := by
  simp only [Linear.fwd]
  rw [if_pos h]

theorem linear_fwd_none (l : Linear) (x : Mat)
    (h : ∃ r ∈ x, r.length ≠ l.in_features) : l.fwd x = none := by
  rcases h with ⟨r, hr, hne⟩
  simp only [Linear.fwd]
  rw [if_neg]
  exact fun hall => hne (hall r hr)

theorem bn_fwd_some (bn : BatchNorm1d) (training : Bool) (x : Mat)
    (h : ∀ r ∈ x, r.length = bn.num_features)
    (hN : ¬(training = true ∧ x.length ≤ 1)) :
    bn.fwd training x = some (bnComp bn training x) := by
  simp only [BatchNorm1d.fwd, if_pos h]
  rw [if_neg]
  intro hc
  exact hN ⟨by simpa using hc.1, hc.2⟩

theorem bn_fwd_small_batch (bn : BatchNorm1d) (x : Mat)
    (hN : x.length ≤ 1) : bn.fwd true x = none := by
  simp [BatchNorm1d.fwd, hN]

theorem cat1_some (a b : Mat) (h : a.length = b.length) :
    cat1 a b = some (List.zipWith (fun r q => r ++ q) a b) := by
  simp [cat1, h]

theorem cat1_none (a b : Mat) (h : a.length ≠ b.length) :
    cat1 a b = none := by
  simp [cat1, h]

/-! ### The elementwise content of `uniform_` fills -/

theorem mem_fillRow (lo hi : ℝ) (s : ℕ → ℝ) (r : Vec) :
    ∀ p, ∀ v ∈ fillRow lo hi s p r, ∃ k, v = lo + s k * (hi - lo) := by
  induction r with
  | nil => intro p v hv; simp [fillRow] at hv
  | cons a as ih =>
    intro p v hv
    rcases List.mem_cons.1 hv with h | h
    · exact ⟨p, h⟩
    · exact ih (p + 1) v h

theorem mem_fillMat (lo hi : ℝ) (s : ℕ → ℝ) (m : Mat) :
    ∀ p, ∀ r ∈ (fillMat lo hi s p m).1, ∀ v ∈ r,
      ∃ k, v = lo + s k * (hi - lo) := by
  induction m with
  | nil => intro p r hr; simp [fillMat] at hr
  | cons q qs ih =>
    intro p r hr
    rcases List.mem_cons.1 hr with h | h
    · intro v hv
      exact mem_fillRow lo hi s q p v (h ▸ hv)
    · exact ih (p + q.length) r h

theorem fill_sample_bounds (lo hi v : ℝ) (s : ℕ → ℝ)
    (hs : ∀ n, 0 ≤ s n ∧ s n ≤ 1) (hlh : lo ≤ hi)
    (hv : ∃ k, v = lo + s k * (hi - lo)) : lo ≤ v ∧ v ≤ hi := by
  rcases hv with ⟨k, rfl⟩
  rcases hs k with ⟨h0, h1⟩
  constructor
  · nlinarith
  · nlinarith

theorem hidden_init_le (l : Linear) : (hidden_init l).1 ≤ (hidden_init l).2 := by
  have h : 0 ≤ 1 / Real.sqrt (((matSize l.weight).headD 0 : ℕ) : ℝ) :=
    one_div_nonneg.2 (Real.sqrt_nonneg _)
  simp only [hidden_init]
  linarith

/-! ### tanh lands strictly inside `(-1, 1)` -/

theorem tanh_strict_bounds (x : ℝ) : -1 < Real.tanh x ∧ Real.tanh x < 1 := by
  have hc := Real.cosh_pos x
  have hadd : 0 < Real.cosh x + Real.sinh x := by
    rw [Real.cosh_add_sinh]; exact Real.exp_pos x
  have hsub : 0 < Real.cosh x - Real.sinh x := by
    rw [Real.cosh_sub_sinh]; exact Real.exp_pos (-x)
  rw [Real.tanh_eq_sinh_div_cosh]
  constructor
  · rw [lt_div_iff₀ hc]
    linarith
  · rw [div_lt_one hc]
    linarith

theorem tanhM_rowlen (m : Mat) (k : ℕ) (h : ∀ r ∈ m, r.length = k) :
    ∀ r ∈ tanhM m, r.length = k := by
  intro r hr
  rcases List.mem_map.1 hr with ⟨q, hq, rfl⟩
  simpa using h q hq

theorem sqrt_four : Real.sqrt 4 = 2 := by
  rw [show (4 : ℝ) = 2 ^ 2 by norm_num, Real.sqrt_sq (by norm_num : (0:ℝ) ≤ 2)]

/-! ### Claims -/

/-- C1 (counterexample): on the layer `L1`, whose weight storage has shape
`[1, 4]` (`out_features = 1`, `in_features = 4`), `hidden_init` does NOT
return `(-1/sqrt(in_features), 1/sqrt(in_features))`: the code takes
`size()[0] = 1`, giving `(-1, 1)` rather than `(-1/2, 1/2)`. -/
theorem hidden_init_fan_in_counterexample :
    hidden_init L1 ≠
      (-(1 / Real.sqrt (L1.in_features : ℝ)), 1 / Real.sqrt (L1.in_features : ℝ)) := by
  have hL : hidden_init L1 = (-(1 : ℝ), (1 : ℝ)) := by
    norm_num [hidden_init, matSize, L1, Real.sqrt_one]
  rw [hL]
  intro h
  have h2 := congrArg Prod.snd h
  simp only [L1] at h2
  norm_num [sqrt_four] at h2

/-- C1 (amended): for every well-formed layer, `hidden_init` returns
`(-lim, lim)` with `lim = 1 / sqrt(size()[0])`, i.e. the bound is computed
from the FIRST dimension of the weight storage — `out_features` for a
weight of shape `[out_features, in_features]` — not from `in_features`. -/
theorem hidden_init_first_dim (l : Linear) (hl : l.wf) :
    hidden_init l =
      (-(1 / Real.sqrt (l.out_features : ℝ)), 1 / Real.sqrt (l.out_features : ℝ)) := by
  have hfan : ((matSize l.weight).headD 0 : ℕ) = l.out_features := by
    simp [matSize, hl.1]
  simp only [hidden_init, hfan]

/-- C1 (witness): the amended statement evaluated on the layer `L1`. -/
theorem hidden_init_first_dim_witness :
    L1.wf ∧
      hidden_init L1 =
        (-(1 / Real.sqrt (L1.out_features : ℝ)), 1 / Real.sqrt (L1.out_features : ℝ)) := by
  have hwf : L1.wf := by
    refine ⟨rfl, ?_, rfl⟩
    intro r hr
    simp only [L1] at hr
    rcases List.mem_singleton.1 hr with rfl
    rfl
  exact ⟨hwf, hidden_init_first_dim L1 hwf⟩

/-- C2: for a well-formed Actor and a batch of rows of length
`state_size`, `forward` succeeds and returns exactly
`tanh(fc3(relu(fc2(relu(fc1(state))))))`, a batch of `state.length` rows
of length `action_size`. -/
theorem actor_forward_spec (a : Actor) (state : Mat) (ha : a.wf)
    (hrow : ∀ r ∈ state, r.length = a.state_size) :
    a.fwd state = some (actorComp a state) ∧
    (actorComp a state).length = state.length ∧
    ∀ r ∈ actorComp a state, r.length = a.action_size := by
  obtain ⟨h1i, h1o, h2i, h2o, h3i, h3o, hw1, hw2, hw3⟩ := ha
  have c1 : ∀ r ∈ state, r.length = a.fc1.in_features := by
    intro r hr; rw [h1i]; exact hrow r hr
  have e1 := linear_fwd_some a.fc1 state c1
  have c2 : ∀ r ∈ reluM (linApply a.fc1 state), r.length = a.fc2.in_features := by
    intro r hr
    rw [h2i, ← h1o]
    exact reluM_rowlen _ _ (linApply_rowlen a.fc1 hw1 state) r hr
  have e2 := linear_fwd_some a.fc2 _ c2
  have c3 : ∀ r ∈ reluM (linApply a.fc2 (reluM (linApply a.fc1 state))),
      r.length = a.fc3.in_features := by
    intro r hr
    rw [h3i, ← h2o]
    exact reluM_rowlen _ _ (linApply_rowlen a.fc2 hw2 _) r hr
  have e3 := linear_fwd_some a.fc3 _ c3
  refine ⟨?_, ?_, ?_⟩
  · simp only [Actor.fwd, e1, Option.some_bind, e2, e3, Option.map_some]
    rfl
  · simp [actorComp, tanhM_length, linApply_length, reluM_length]
  · intro r hr
    have := tanhM_rowlen (linApply a.fc3 (reluM (linApply a.fc2 (reluM (linApply a.fc1 state)))))
      a.action_size (by rw [← h3o]; exact linApply_rowlen a.fc3 hw3 _) r
    exact this (by simpa [actorComp] using hr)

/-- C2 (witness): the statement evaluated on the concrete Actor `A2` and
the batch `[[0]]`. -/
theorem actor_forward_spec_witness :
    A2.wf ∧ (∀ r ∈ ([[0]] : Mat), r.length = A2.state_size) ∧
      (A2.fwd [[0]] = some (actorComp A2 [[0]]) ∧
        (actorComp A2 [[0]]).length = ([[0]] : Mat).length ∧
        ∀ r ∈ actorComp A2 [[0]], r.length = A2.action_size) := by
  have hx : ∀ r ∈ ([[0]] : Mat), r.length = 1 := by
    intro r hr
    rcases List.mem_singleton.1 hr with rfl
    rfl
  have hwf : A2.wf :=
    ⟨rfl, rfl, rfl, rfl, rfl, rfl, ⟨rfl, hx, rfl⟩, ⟨rfl, hx, rfl⟩, ⟨rfl, hx, rfl⟩⟩
  have hrow : ∀ r ∈ ([[0]] : Mat), r.length = A2.state_size := by
    intro r hr
    rcases List.mem_singleton.1 hr with rfl
    rfl
  exact ⟨hwf, hrow, actor_forward_spec A2 [[0]] hwf hrow⟩

/-- C5: whenever `Actor.forward` returns a batch, every element of it is
strictly inside the open interval `(-1, 1)`: the last step applies `tanh`
elementwise. -/
theorem actor_forward_open_interval (a : Actor) (state out : Mat)
    (h : a.fwd state = some out) :
    ∀ r ∈ out, ∀ v ∈ r, -1 < v ∧ v < 1 := by
  simp only [Actor.fwd, Option.bind_eq_some, Option.map_eq_some'] at h
  rcases h with ⟨x1, _, x2, _, x3, _, hout⟩
  subst hout
  intro r hr
  rcases List.mem_map.1 hr with ⟨q, _, rfl⟩
  intro v hv
  rcases List.mem_map.1 hv with ⟨u, _, rfl⟩
  exact tanh_strict_bounds u

/-- C5 (witness): `Actor.forward` on the concrete Actor `A2` and batch
`[[0]]` succeeds, and every element of the result lies in `(-1, 1)`. -/
theorem actor_forward_open_interval_witness :
    A2.fwd [[0]] = some [[Real.tanh 0]] ∧
      ∀ r ∈ ([[Real.tanh 0]] : Mat), ∀ v ∈ r, -1 < v ∧ v < 1 := by
  have h : A2.fwd [[0]] = some [[Real.tanh 0]] := by
    simp [Actor.fwd, Linear.fwd, linApply, Linear.apply1, A2, dot, reluM,
      relu, tanhM]
  exact ⟨h, actor_forward_open_interval A2 [[0]] [[Real.tanh 0]] h⟩

/-- C6: constructing two Actors with the same seed, the same sizes and the
same torch generator model yields identical parameters in all layers,
whatever the prior global generator states were: `manual_seed` resets the
generator to a function of the seed alone. -/
theorem actor_init_deterministic (phi : ℕ → ℕ → ℝ)
    (state_size action_size seed fc1_units fc2_units : ℕ) (g h : GState) :
    (mkActor phi state_size action_size seed fc1_units fc2_units g).1 =
      (mkActor phi state_size action_size seed fc1_units fc2_units h).1 := rfl

/-- C9: `reset_parameters` overwrites only weights: every bias vector of
every layer of an Actor or a Critic (including the Critic's BatchNorm
shift) is unchanged by the call, whatever the sample stream. -/
theorem reset_parameters_preserves_biases (a : Actor) (c : Critic)
    (s t : ℕ → ℝ) (p q : ℕ) :
    ((a.reset_parameters s p).1.fc1.bias = a.fc1.bias ∧
      (a.reset_parameters s p).1.fc2.bias = a.fc2.bias ∧
      (a.reset_parameters s p).1.fc3.bias = a.fc3.bias) ∧
    ((c.reset_parameters t q).1.fcs1.bias = c.fcs1.bias ∧
      (c.reset_parameters t q).1.fc2.bias = c.fc2.bias ∧
      (c.reset_parameters t q).1.fc3.bias = c.fc3.bias ∧
      (c.reset_parameters t q).1.bn1.bias = c.bn1.bias) :=
  ⟨⟨rfl, rfl, rfl⟩, ⟨rfl, rfl, rfl, rfl⟩⟩

/-- C10: `hidden_init` is a pure reader of the weight storage's shape: its
result is unchanged by any replacement of the weight values and the bias
(same shape), and the overwrite of weights happens in the caller —
`reset_parameters` on the concrete Actor `A1` does change `fc1.weight`. -/
theorem hidden_init_reads_only_shape :
    (∀ (l : Linear) (w : Mat) (b : Vec), matSize w = matSize l.weight →
      hidden_init { l with weight := w, bias := b } = hidden_init l) ∧
    (A1.reset_parameters oneStream 0).1.fc1.weight ≠ A1.fc1.weight := by
  constructor
  · intro l w b hw
    simp only [hidden_init, hw]
  · have hw : (A1.reset_parameters oneStream 0).1.fc1.weight = [[1]] := by
      norm_num [Actor.reset_parameters, A1, hidden_init, matSize, fillMat,
        fillRow, oneStream, Real.sqrt_one]
    rw [hw]
    intro h
    have h2 := congrArg (fun m => (m.headD []).headD (0 : ℝ)) h
    simp only [A1, List.headD_cons] at h2
    norm_num at h2

/-- C10 (witness): `hidden_init` gives the same bounds on two layers that
share only the weight storage shape `[1, 4]`. -/
theorem hidden_init_reads_only_shape_witness :
    hidden_init { L1 with weight := [[9, 9, 9, 9]], bias := [] } =
      hidden_init L1 :=
  hidden_init_reads_only_shape.1 L1 [[9, 9, 9, 9]] [] rfl

/-! ### Critic forward: success path and shapes -/

theorem critic_fwd_some (c : Critic) (hc : c.wf) (training : Bool)
    (state action : Mat)
    (hs : ∀ r ∈ state, r.length = c.state_size)
    (ha : ∀ r ∈ action, r.length = c.action_size)
    (hN : state.length = action.length)
    (hbn : ¬(training = true ∧ state.length ≤ 1)) :
    c.fwd training state action = some (criticComp c training state action) := by
  obtain ⟨h1i, h1o, hbf, h2i, h2o, h3i, h3o, hw1, hw2, hw3⟩ := hc
  have c1 : ∀ r ∈ state, r.length = c.fcs1.in_features := by
    intro r hr; rw [h1i]; exact hs r hr
  have e1 := linear_fwd_some c.fcs1 state c1
  have cy : ∀ r ∈ linApply c.fcs1 state, r.length = c.bn1.num_features := by
    intro r hr; rw [hbf, ← h1o]; exact linApply_rowlen c.fcs1 hw1 state r hr
  have hylen : (linApply c.fcs1 state).length = state.length :=
    linApply_length c.fcs1 state
  have e2 := bn_fwd_some c.bn1 training (linApply c.fcs1 state) cy
    (by rw [hylen]; exact hbn)
  have hzlen : (reluM (bnComp c.bn1 training (linApply c.fcs1 state))).length =
      action.length := by
    rw [reluM_length, bnComp_length, hylen, hN]
  have e3 := cat1_some (reluM (bnComp c.bn1 training (linApply c.fcs1 state)))
    action hzlen
  have crow : ∀ r ∈ reluM (bnComp c.bn1 training (linApply c.fcs1 state)),
      r.length = c.fcs1_units := by
    apply reluM_rowlen
    apply bnComp_rowlen
    intro r hr
    rw [← h1o]
    exact linApply_rowlen c.fcs1 hw1 state r hr
  have cw : ∀ r ∈ List.zipWith (fun r q => r ++ q)
      (reluM (bnComp c.bn1 training (linApply c.fcs1 state))) action,
      r.length = c.fc2.in_features := by
    intro r hr
    rcases mem_zipWith _ _ _ r hr with ⟨a2, ha2, b2, hb2, rfl⟩
    rw [List.length_append, h2i, crow a2 ha2, ha b2 hb2]
  have e4 := linear_fwd_some c.fc2 _ cw
  have cv : ∀ r ∈ reluM (linApply c.fc2 (List.zipWith (fun r q => r ++ q)
      (reluM (bnComp c.bn1 training (linApply c.fcs1 state))) action)),
      r.length = c.fc3.in_features := by
    intro r hr
    rw [h3i, ← h2o]
    exact reluM_rowlen _ _ (linApply_rowlen c.fc2 hw2 _) r hr
  have e5 := linear_fwd_some c.fc3 _ cv
  simp only [Critic.fwd, e1, Option.some_bind, e2, e3, e4, e5]
  rfl

theorem criticComp_shape (c : Critic) (hc : c.wf) (training : Bool)
    (state action : Mat) (hN : state.length = action.length) :
    (criticComp c training state action).length = state.length ∧
    ∀ r ∈ criticComp c training state action, r.length = 1 := by
  obtain ⟨h1i, h1o, hbf, h2i, h2o, h3i, h3o, hw1, hw2, hw3⟩ := hc
  constructor
  · simp only [criticComp]
    rw [linApply_length, reluM_length, linApply_length, List.length_zipWith,
      reluM_length, bnComp_length, linApply_length, hN, min_self]
  · intro r hr
    have h := linApply_rowlen c.fc3 hw3 (reluM (linApply c.fc2
      (List.zipWith (fun r q => r ++ q)
        (reluM (bnComp c.bn1 training (linApply c.fcs1 state))) action))) r
      (by simpa [criticComp] using hr)
    rw [h3o] at h
    exact h

/-- C3: for a well-formed Critic on matching valid inputs, `forward`
computes, in order, `xs = relu(batchnorm(fcs1(state)))`, then
`x = concat(xs, action)` along the feature axis, then `x = relu(fc2(x))`,
and returns `Q = fc3(x)` with no bounding activation: the result is
exactly the spec composition `criticComp`. -/
theorem critic_forward_spec (c : Critic) (training : Bool)
    (state action : Mat) (hc : c.wf)
    (hs : ∀ r ∈ state, r.length = c.state_size)
    (ha : ∀ r ∈ action, r.length = c.action_size)
    (hN : state.length = action.length)
    (hbn : ¬(training = true ∧ state.length ≤ 1)) :
    c.fwd training state action =
      some (criticComp c training state action) :=
  critic_fwd_some c hc training state action hs ha hN hbn

/-- C7: a well-formed Critic's `forward` yields no result (the shape error
propagates) whenever the two batch sizes differ, or the state feature
dimension is not `state_size`, or the action feature dimension is not
`action_size`. -/
theorem critic_forward_shape_mismatch (c : Critic) (hc : c.wf)
    (training : Bool) (state action : Mat) (fs fa : ℕ)
    (hs : ∀ r ∈ state, r.length = fs)
    (ha : ∀ r ∈ action, r.length = fa)
    (hsne : state ≠ []) (hane : action ≠ [])
    (hmis : state.length ≠ action.length ∨ fs ≠ c.state_size ∨
      fa ≠ c.action_size) :
    c.fwd training state action = none := by
  obtain ⟨h1i, h1o, hbf, h2i, h2o, h3i, h3o, hw1, hw2, hw3⟩ := hc
  by_cases hfs : fs = c.state_size
  · subst hfs
    have c1 : ∀ r ∈ state, r.length = c.fcs1.in_features := by
      intro r hr; rw [h1i]; exact hs r hr
    have e1 := linear_fwd_some c.fcs1 state c1
    have cy : ∀ r ∈ linApply c.fcs1 state, r.length = c.bn1.num_features := by
      intro r hr; rw [hbf, ← h1o]; exact linApply_rowlen c.fcs1 hw1 state r hr
    have hylen : (linApply c.fcs1 state).length = state.length :=
      linApply_length c.fcs1 state
    by_cases hsmall : training = true ∧ state.length ≤ 1
    · rcases hsmall with ⟨ht, hle⟩
      subst ht
      have e2 : c.bn1.fwd true (linApply c.fcs1 state) = none :=
        bn_fwd_small_batch c.bn1 _ (by rw [hylen]; exact hle)
      simp [Critic.fwd, e1, e2]
    · have e2 := bn_fwd_some c.bn1 training (linApply c.fcs1 state) cy
        (by rw [hylen]; exact hsmall)
      by_cases hNm : state.length = action.length
      · have hfa : fa ≠ c.action_size := by
          rcases hmis with h | h | h
          · exact absurd hNm h
          · exact absurd rfl h
          · exact h
        have hzlen : (reluM (bnComp c.bn1 training
            (linApply c.fcs1 state))).length = action.length := by
          rw [reluM_length, bnComp_length, hylen]; exact hNm
        have e3 := cat1_some (reluM (bnComp c.bn1 training
          (linApply c.fcs1 state))) action hzlen
        have crow : ∀ r ∈ reluM (bnComp c.bn1 training (linApply c.fcs1 state)),
            r.length = c.fcs1_units := by
          apply reluM_rowlen
          apply bnComp_rowlen
          intro r hr
          rw [← h1o]
          exact linApply_rowlen c.fcs1 hw1 state r hr
        have hpos : 0 < (List.zipWith (fun r q => r ++ q)
            (reluM (bnComp c.bn1 training (linApply c.fcs1 state)))
            action).length := by
          rw [List.length_zipWith, hzlen, min_self]
          exact List.length_pos.2 hane
        rcases List.exists_mem_of_length_pos hpos with ⟨r0, hr0⟩
        have hlen0 : r0.length ≠ c.fc2.in_features := by
          rcases mem_zipWith _ _ _ r0 hr0 with ⟨a2, ha2, b2, hb2, rfl⟩
          rw [List.length_append, h2i, crow a2 ha2, ha b2 hb2]
          intro hcontr
          exact hfa (Nat.add_left_cancel hcontr)
        have e4 := linear_fwd_none c.fc2 _ ⟨r0, hr0, hlen0⟩
        simp [Critic.fwd, e1, e2, e3, e4]
      · have e3 : cat1 (reluM (bnComp c.bn1 training
            (linApply c.fcs1 state))) action = none := by
          apply cat1_none
          rw [reluM_length, bnComp_length, hylen]
          exact hNm
        simp [Critic.fwd, e1, e2, e3]
  · rcases List.exists_mem_of_ne_nil state hsne with ⟨r0, hr0⟩
    have e1 : c.fcs1.fwd state = none := linear_fwd_none c.fcs1 state
      ⟨r0, hr0, by rw [hs r0 hr0, h1i]; exact hfs⟩
    simp [Critic.fwd, e1]

/-- C8: with matching, well-sized inputs, a well-formed Critic's `forward`
fails on a training-mode batch of size 1 (BatchNorm1d refuses it with an
explicit error instead of producing NaN), while any batch of size at
least 2 in training mode, or at least 1 (indeed any) in evaluation mode,
yields a result of shape `(batch_size, 1)`. -/
theorem critic_forward_batch_size (c : Critic) (hc : c.wf) (training : Bool)
    (state action : Mat)
    (hs : ∀ r ∈ state, r.length = c.state_size)
    (ha : ∀ r ∈ action, r.length = c.action_size)
    (hN : state.length = action.length) :
    (training = true ∧ state.length = 1 →
      c.fwd training state action = none) ∧
    (¬(training = true ∧ state.length ≤ 1) →
      ∃ out, c.fwd training state action = some out ∧
        out.length = state.length ∧ ∀ r ∈ out, r.length = 1) := by
  constructor
  · rintro ⟨ht, h1⟩
    subst ht
    obtain ⟨h1i, h1o, hbf, h2i, h2o, h3i, h3o, hw1, hw2, hw3⟩ := id hc
    have c1 : ∀ r ∈ state, r.length = c.fcs1.in_features := by
      intro r hr; rw [h1i]; exact hs r hr
    have e1 := linear_fwd_some c.fcs1 state c1
    have e2 : c.bn1.fwd true (linApply c.fcs1 state) = none :=
      bn_fwd_small_batch c.bn1 _ (by rw [linApply_length, h1])
    simp [Critic.fwd, e1, e2]
  · intro hbn
    exact ⟨criticComp c training state action,
      critic_fwd_some c hc training state action hs ha hN hbn,
      (criticComp_shape c hc training state action hN).1,
      (criticComp_shape c hc training state action hN).2⟩

/-- C4: after `reset_parameters` driven by any stream of unit samples,
every fc3 weight of the Actor and of the Critic lies within the uniform
bound `(-0.003, 0.003)`, while the fc1/fc2 (resp. fcs1/fc2) weights lie
within the symmetric bound `hidden_init` returns for their own layer. -/
theorem reset_parameters_weight_bounds (a : Actor) (c : Critic)
    (s t : ℕ → ℝ) (p q : ℕ)
    (hsu : ∀ n, 0 ≤ s n ∧ s n ≤ 1) (htu : ∀ n, 0 ≤ t n ∧ t n ≤ 1) :
    (∀ r ∈ (a.reset_parameters s p).1.fc1.weight, ∀ v ∈ r,
      (hidden_init a.fc1).1 ≤ v ∧ v ≤ (hidden_init a.fc1).2) ∧
    (∀ r ∈ (a.reset_parameters s p).1.fc2.weight, ∀ v ∈ r,
      (hidden_init a.fc2).1 ≤ v ∧ v ≤ (hidden_init a.fc2).2) ∧
    (∀ r ∈ (a.reset_parameters s p).1.fc3.weight, ∀ v ∈ r,
      -(3 / 1000) ≤ v ∧ v ≤ 3 / 1000) ∧
    (∀ r ∈ (c.reset_parameters t q).1.fcs1.weight, ∀ v ∈ r,
      (hidden_init c.fcs1).1 ≤ v ∧ v ≤ (hidden_init c.fcs1).2) ∧
    (∀ r ∈ (c.reset_parameters t q).1.fc2.weight, ∀ v ∈ r,
      (hidden_init c.fc2).1 ≤ v ∧ v ≤ (hidden_init c.fc2).2) ∧
    (∀ r ∈ (c.reset_parameters t q).1.fc3.weight, ∀ v ∈ r,
      -(3 / 1000) ≤ v ∧ v ≤ 3 / 1000) := by
  refine ⟨?_, ?_, ?_, ?_, ?_, ?_⟩ <;> intro r hr v hv
  · exact fill_sample_bounds _ _ v s hsu (hidden_init_le a.fc1)
      (mem_fillMat _ _ s a.fc1.weight _ r hr v hv)
  · exact fill_sample_bounds _ _ v s hsu (hidden_init_le a.fc2)
      (mem_fillMat _ _ s a.fc2.weight _ r hr v hv)
  · exact fill_sample_bounds _ _ v s hsu (by norm_num)
      (mem_fillMat _ _ s a.fc3.weight _ r hr v hv)
  · exact fill_sample_bounds _ _ v t htu (hidden_init_le c.fcs1)
      (mem_fillMat _ _ t c.fcs1.weight _ r hr v hv)
  · exact fill_sample_bounds _ _ v t htu (hidden_init_le c.fc2)
      (mem_fillMat _ _ t c.fc2.weight _ r hr v hv)
  · exact fill_sample_bounds _ _ v t htu (by norm_num)
      (mem_fillMat _ _ t c.fc3.weight _ r hr v hv)

theorem CR1_wf : CR1.wf := by
  have hx1 : ∀ r ∈ ([[0]] : Mat), r.length = 1 := by
    intro r hr
    rcases List.mem_singleton.1 hr with rfl
    rfl
  have hx2 : ∀ r ∈ ([[0, 0]] : Mat), r.length = 2 := by
    intro r hr
    rcases List.mem_singleton.1 hr with rfl
    rfl
  exact ⟨rfl, rfl, rfl, rfl, rfl, rfl, rfl,
    ⟨rfl, hx1, rfl⟩, ⟨rfl, hx2, rfl⟩, ⟨rfl, hx1, rfl⟩⟩

theorem CR1_rowhyp : ∀ r ∈ ([[0]] : Mat), r.length = 1 := by
  intro r hr
  rcases List.mem_singleton.1 hr with rfl
  rfl

/-- C3 (witness): the statement evaluated on the concrete Critic `CR1` in
evaluation mode with one state row and one action row. -/
theorem critic_forward_spec_witness :
    CR1.wf ∧ CR1.fwd false [[0]] [[0]] =
      some (criticComp CR1 false [[0]] [[0]]) :=
  ⟨CR1_wf, critic_forward_spec CR1 false [[0]] [[0]] CR1_wf CR1_rowhyp
    CR1_rowhyp rfl (by simp)⟩

/-- C7 (witness): on `CR1` with a state batch of 1 row and an action batch
of 2 rows, `forward` yields no result. -/
theorem critic_forward_shape_mismatch_witness :
    CR1.wf ∧ ([[0]] : Mat).length ≠ ([[0], [0]] : Mat).length ∧
      CR1.fwd false [[0]] [[0], [0]] = none := by
  have hb : ([[0]] : Mat).length ≠ ([[0], [0]] : Mat).length := by simp
  have ha : ∀ r ∈ ([[0], [0]] : Mat), r.length = 1 := by
    intro r hr
    rcases List.mem_cons.1 hr with rfl | hr2
    · rfl
    · rcases List.mem_singleton.1 hr2 with rfl
      rfl
  exact ⟨CR1_wf, hb, critic_forward_shape_mismatch CR1 CR1_wf false
    [[0]] [[0], [0]] 1 1 CR1_rowhyp ha (by simp) (by simp) (Or.inl hb)⟩

/-- C8 (witness): on `CR1`, a training-mode batch of size 1 fails, while
the same batch in evaluation mode returns a result of shape `(1, 1)`. -/
theorem critic_forward_batch_size_witness :
    CR1.fwd true [[0]] [[0]] = none ∧
      ∃ out, CR1.fwd false [[0]] [[0]] = some out ∧
        out.length = ([[0]] : Mat).length ∧ ∀ r ∈ out, r.length = 1 :=
  ⟨(critic_forward_batch_size CR1 CR1_wf true [[0]] [[0]] CR1_rowhyp
      CR1_rowhyp rfl).1 ⟨rfl, rfl⟩,
    (critic_forward_batch_size CR1 CR1_wf false [[0]] [[0]] CR1_rowhyp
      CR1_rowhyp rfl).2 (by simp)⟩

/-- C4 (witness): the fc3 bound of the statement evaluated on `A2`, `CR1`
and the constant stream 1/2. -/
theorem reset_parameters_weight_bounds_witness :
    (∀ n, 0 ≤ halfStream n ∧ halfStream n ≤ 1) ∧
      ∀ r ∈ (A2.reset_parameters halfStream 0).1.fc3.weight, ∀ v ∈ r,
        -(3 / 1000) ≤ v ∧ v ≤ 3 / 1000 := by
  have hh : ∀ n, 0 ≤ halfStream n ∧ halfStream n ≤ 1 := by
    intro n
    constructor <;> norm_num [halfStream]
  exact ⟨hh, (reset_parameters_weight_bounds A2 CR1 halfStream halfStream
    0 0 hh hh).2.2.1⟩

end DDPG
